import Mathlib

/-!
Verification development for the homeless-encampment detection pipeline
(tile/url collection scripts `1_extract_street_img_urls*.py` and batch
detection scripts `2_detect_tents*.py`).  CSV cells are modelled as
`Option String`: `none` is a pandas NaN (a missing value, as produced when
a CSV with an empty cell is read back), `some s` is the string `s`.
The detection main loop is modelled as a pure fold over the stream of
fetch outcomes in completion order.
-/

namespace HomelessPipeline

/-- `df['prediction'].isna()` for one cell. -/
def isna (p : Option String) : Bool := p.isNone

/-- The v3 resume filter (`2_detect_tents_v3.py`):
`df[(df['prediction'].isna()) | (df['prediction'] == '') | (df['prediction'] == 'ERROR')]`. -/
def needsProcess (p : Option String) : Bool :=
  isna p || decide (p = some "") || decide (p = some "ERROR")

/-- The v2 resume filter (`2_detect_tents_v2.py`):
`df[(df['prediction'] == '') | (df['prediction'] == 'ERROR')]` — no `isna` test. -/
def needsProcessV2 (p : Option String) : Bool :=
  decide (p = some "") || decide (p = some "ERROR")

/-- The v3 `already_done` predicate:
`(df['prediction'] != '') & (df['prediction'] != 'ERROR') & (~df['prediction'].isna())`. -/
def alreadyDone (p : Option String) : Bool :=
  decide (p ≠ some "") && decide (p ≠ some "ERROR") && !(isna p)

/-- One CSV row of the detection stage: a url plus the `prediction` and
`confidence` cells. -/
structure Row where
  url : String
  prediction : Option String
  confidence : Option String
deriving DecidableEq, Repr

/-- The `prediction` cell at positional index `i` (`df.at[i, 'prediction']`). -/
def predAt (rows : List Row) (i : Nat) : Option String :=
  match rows[i]? with
  | some r => r.prediction
  | none => none

/-- `df.at[idx, 'prediction'] = v` — set just the prediction cell. -/
def setPredCell (rows : List Row) (i : Nat) (v : Option String) : List Row :=
  match rows[i]? with
  | some r => rows.set i { r with prediction := v }
  | none => rows

/-- `df.at[idx, 'prediction'] = label; df.at[idx, 'confidence'] = conf`. -/
def setResult (rows : List Row) (i : Nat) (l c : String) : List Row :=
  match rows[i]? with
  | some r => rows.set i { r with prediction := some l, confidence := some c }
  | none => rows

/-- Write a batch of classifier results back into the dataframe
(the `for idx_p, label, conf in preds:` loop body). -/
def applyBatch (rows : List Row) (b : List (Nat × String × String)) : List Row :=
  b.foldl (fun rs p => setResult rs p.1 p.2.1 p.2.2) rows

/-- Indices of `df_to_process`: the rows selected by the v3 resume filter. -/
def toProcessIdx (rows : List Row) : List Nat :=
  (List.range rows.length).filter (fun i => needsProcess (predAt rows i))

/-- Run configuration: `BATCH_SIZE`, `SAVE_EVERY`, the shutdown flag's value at
the top of each loop iteration (`sched t` = flag observed before consuming the
`t`-th outcome), and whether the `k`-th `predict_batch` invocation succeeds. -/
structure Config where
  B : Nat
  saveEvery : Nat
  sched : Nat → Bool
  predictOk : Nat → Bool

/-- One completed fetch future: the row index, and `none` when the fetch
exhausted its retries (`img is None`), else the label/confidence the external
classifier assigns to the fetched image. -/
structure Event where
  idx : Nat
  outcome : Option (String × String)
deriving DecidableEq, Repr

/-- The mutable state of the v3 main loop. -/
structure St where
  rows : List Row
  batch : List (Nat × String × String)
  pss : Nat
  calls : Nat
  midSaves : Nat
  shutdownSave : Bool
  finalSave : Bool
  consumed : Nat
  stopped : Bool
deriving DecidableEq, Repr

def initSt (rows : List Row) : St :=
  { rows := rows, batch := [], pss := 0, calls := 0, midSaves := 0,
    shutdownSave := false, finalSave := false, consumed := 0, stopped := false }

/-- The body of one iteration of the v3 consume loop, after the shutdown check:
mark `ERROR` on fetch failure; otherwise append to the buffer, and when it
reaches `BATCH_SIZE` invoke `predict_batch` (writing results and bumping
`processed_since_save` on success, clearing the buffer either way), then
checkpoint if `processed_since_save >= SAVE_EVERY`. -/
def stepEvent (cfg : Config) (e : Event) (s : St) : St :=
  match e.outcome with
  | none =>
      { s with rows := setPredCell s.rows e.idx (some "ERROR"),
               consumed := s.consumed + 1 }
  | some (l, c) =>
      let b := s.batch ++ [(e.idx, l, c)]
      if cfg.B ≤ b.length then
        let s1 :=
          if cfg.predictOk s.calls then
            { s with rows := applyBatch s.rows b, batch := [],
                     pss := s.pss + b.length, calls := s.calls + 1,
                     consumed := s.consumed + 1 }
          else
            { s with batch := [], calls := s.calls + 1,
                     consumed := s.consumed + 1 }
        if cfg.saveEvery ≤ s1.pss then
          { s1 with midSaves := s1.midSaves + 1, pss := 0 }
        else s1
      else
        { s with batch := b, consumed := s.consumed + 1 }

/-- The v3 consume loop over completed futures: at the top of each iteration
the shutdown flag is observed; when set, an intermediate save is made and the
loop breaks. -/
def runLoop (cfg : Config) : List Event → St → St
  | [], s => s
  | e :: es, s =>
      if cfg.sched s.consumed then
        { s with stopped := true, shutdownSave := true }
      else
        runLoop cfg es (stepEvent cfg e s)

/-- The epilogue of the v3 script: flush the final partial buffer unless the
shutdown flag is set, then `save_intermediate("(final)")`. -/
def finalize (cfg : Config) (s : St) : St :=
  let flag := s.stopped || cfg.sched s.consumed
  let s1 :=
    if !flag && !s.batch.isEmpty then
      if cfg.predictOk s.calls then
        { s with rows := applyBatch s.rows s.batch, calls := s.calls + 1 }
      else
        { s with calls := s.calls + 1 }
    else s
  { s1 with finalSave := true }

/-- A whole run of the v3 detection script on one chunk. -/
def run (cfg : Config) (df0 : List Row) (events : List Event) : St :=
  finalize cfg (runLoop cfg events (initSt df0))

/-- Number of successfully fetched items in an outcome stream. -/
def okCount (es : List Event) : Nat :=
  (es.filter (fun e => e.outcome.isSome)).length

/-! ### Retrying fetcher (`fetch_image` of `2_detect_tents_v3.py`)

`for attempt in range(1, MAX_RETRIES + 1)`: on success return `(idx, img)`;
on exception, return `(idx, None)` when `attempt == MAX_RETRIES`, else sleep
`BACKOFF_BASE ** attempt` and try again.  The oracle gives, per attempt
number, the image on success or `none` on exception.  The model returns the
Python return value (`none` models the loop falling through without a
`return`, which happens only for `MAX_RETRIES = 0`), the list of delays
slept, and the number of attempts made. -/

def fetchFrom {α : Type} (idx : Nat) (base : ℚ) (oracle : Nat → Option α) :
    List Nat → Option (Nat × Option α) × List ℚ × Nat
  | [] => (none, [], 0)
  | a :: rest =>
      match oracle a with
      | some img => (some (idx, some img), [], 1)
      | none =>
          if rest.isEmpty then (some (idx, none), [], 1)
          else
            let r := fetchFrom idx base oracle rest
            (r.1, base ^ a :: r.2.1, r.2.2 + 1)

def fetch_image {α : Type} (idx : Nat) (maxRetries : Nat) (base : ℚ)
    (oracle : Nat → Option α) : Option (Nat × Option α) × List ℚ × Nat :=
  fetchFrom idx base oracle (List.range' 1 maxRetries)

/-- `MAX_RETRIES = 3` in `2_detect_tents_v3.py`. -/
def MAX_RETRIES : Nat := 3

/-- `BACKOFF_BASE = 1.5` in `2_detect_tents_v3.py`. -/
def BACKOFF_BASE : ℚ := 3 / 2

/-! ### Checkpoint persistence (`atomic_save_csv` v3 vs `save_intermediate` v2)

A file on disk is absent, truncated (an interrupted write left only the first
rows of the intended content), or complete.  `to_csv` is modelled as writing
the rows one by one; the file is complete only once all rows are out.  A
crash point `k` counts the primitive steps that completed before the crash. -/

inductive FileData where
  | absent : FileData
  | truncated (rows : List String) : FileData
  | complete (rows : List String) : FileData
deriving DecidableEq, Repr

/-- State of the `to_csv` target after `k` of its row writes finished. -/
def truncWrite (content : List String) (k : Nat) : FileData :=
  if content.length ≤ k then .complete content else .truncated (content.take k)

structure Disk where
  canonical : FileData
  tmp : FileData
deriving DecidableEq, Repr

/-- `atomic_save_csv` (v3): `df.to_csv(tmp)` then `os.replace(tmp, path)`.
Crash point `k ≤ content.length` is inside the tmp write; any larger `k` is
after the atomic replace. -/
def atomicSaveCrash (d : Disk) (content : List String) (k : Nat) : Disk :=
  if k ≤ content.length then
    { canonical := d.canonical, tmp := truncWrite content k }
  else
    { canonical := .complete content, tmp := .absent }

/-- `save_intermediate` (v2): `df.to_csv(INTERMEDIATE_CSV)` straight onto the
canonical path. -/
def directSaveCrash (d : Disk) (content : List String) (k : Nat) : Disk :=
  { d with canonical := truncWrite content k }

/-! ### Collection stage (`1_extract_street_img_urls_missing.py` main loop)

Per tile future: an `HTTPError` with a 5xx code or a `RequestException` makes
the loop print `[Skip]` and `continue`; otherwise the tile's records are
appended to the output CSV. -/

inductive TileErr where
  | server (code : Nat) : TileErr
  | network : TileErr
deriving DecidableEq, Repr

/-- The output rows appended by the collection main loop, given each tile's
outcome. -/
def collectRun {α : Type} (outcomes : List (Except TileErr (List α))) : List α :=
  outcomes.foldl
    (fun acc o => match o with
      | .ok recs => acc ++ recs
      | .error _ => acc) []

/-! ### Shutdown flag (`shutdown_flag = threading.Event()`) -/

/-- `shutdown_flag.set()`: sets the flag regardless of its prior value. -/
def setFlag (_ : Bool) : Bool := true

/-- The flag's value at loop-iteration time `t`, given the times at which
signals arrive: set iff some signal arrived at or before `t`. -/
def sigSched (ts : List Nat) : Nat → Bool :=
  fun t => ts.any (fun t0 => decide (t0 ≤ t))

/-! ### Basic lemmas -/

lemma needsProcess_eq_not_alreadyDone (p : Option String) :
    needsProcess p = !alreadyDone p := by
  cases p with
  | none => rfl
  | some s =>
      simp only [needsProcess, alreadyDone, isna, Option.isNone_some, Bool.false_or,
        Bool.not_and, Bool.not_not, decide_not]
      cases h1 : decide (some s = some ("" : String)) <;>
        cases h2 : decide (some s = some ("ERROR" : String)) <;> simp_all

lemma setPredCell_length (rows : List Row) (i : Nat) (v : Option String) :
    (setPredCell rows i v).length = rows.length := by
  unfold setPredCell
  cases rows[i]? <;> simp

lemma setResult_length (rows : List Row) (i : Nat) (l c : String) :
    (setResult rows i l c).length = rows.length := by
  unfold setResult
  cases rows[i]? <;> simp

lemma applyBatch_cons (rows : List Row) (p : Nat × String × String)
    (b : List (Nat × String × String)) :
    applyBatch rows (p :: b) = applyBatch (setResult rows p.1 p.2.1 p.2.2) b := rfl

lemma applyBatch_length (b : List (Nat × String × String)) (rows : List Row) :
    (applyBatch rows b).length = rows.length := by
  induction b generalizing rows with
  | nil => rfl
  | cons p b ih => rw [applyBatch_cons, ih, setResult_length]

lemma setPredCell_getElem_ne (rows : List Row) (j i : Nat) (v : Option String)
    (h : j ≠ i) : (setPredCell rows j v)[i]? = rows[i]? := by
  unfold setPredCell
  cases rows[j]? with
  | none => rfl
  | some r => exact List.getElem?_set_ne h

lemma setResult_getElem_ne (rows : List Row) (j i : Nat) (l c : String)
    (h : j ≠ i) : (setResult rows j l c)[i]? = rows[i]? := by
  unfold setResult
  cases rows[j]? with
  | none => rfl
  | some r => exact List.getElem?_set_ne h

lemma applyBatch_getElem_ne (b : List (Nat × String × String)) (rows : List Row)
    (i : Nat) (h : ∀ p ∈ b, p.1 ≠ i) :
    (applyBatch rows b)[i]? = rows[i]? := by
  induction b generalizing rows with
  | nil => rfl
  | cons p b ih =>
      rw [applyBatch_cons, ih _ (fun q hq => h q (List.mem_cons_of_mem p hq)),
        setResult_getElem_ne rows p.1 i _ _ (h p (List.mem_cons_self p b))]

lemma stepEvent_rows_length (cfg : Config) (e : Event) (s : St) :
    (stepEvent cfg e s).rows.length = s.rows.length := by
  rcases e with ⟨i, o⟩
  cases o with
  | none => simp [stepEvent, setPredCell_length]
  | some lc =>
      rcases lc with ⟨l, c⟩
      simp only [stepEvent]
      split_ifs <;> simp [applyBatch_length]

lemma runLoop_rows_length (cfg : Config) (events : List Event) (s : St) :
    (runLoop cfg events s).rows.length = s.rows.length := by
  induction events generalizing s with
  | nil => rfl
  | cons e es ih =>
      rw [runLoop]
      split_ifs with h
      · rfl
      · rw [ih, stepEvent_rows_length]

lemma finalize_rows_length (cfg : Config) (s : St) :
    (finalize cfg s).rows.length = s.rows.length := by
  simp only [finalize]
  split_ifs <;> simp [applyBatch_length]

lemma run_rows_length (cfg : Config) (df0 : List Row) (events : List Event) :
    (run cfg df0 events).rows.length = df0.length := by
  rw [run, finalize_rows_length, runLoop_rows_length]; rfl

/-! ### Locality: an index touched by no event and no buffered result keeps its row -/

lemma stepEvent_untouched (cfg : Config) (e : Event) (s : St) (i : Nat)
    (he : e.idx ≠ i) (hb : ∀ p ∈ s.batch, p.1 ≠ i) :
    (stepEvent cfg e s).rows[i]? = s.rows[i]? ∧
      ∀ p ∈ (stepEvent cfg e s).batch, p.1 ≠ i := by
  rcases e with ⟨j, o⟩
  cases o with
  | none =>
      refine ⟨setPredCell_getElem_ne s.rows j i _ he, ?_⟩
      simpa [stepEvent] using hb
  | some lc =>
      rcases lc with ⟨l, c⟩
      have hball : ∀ p ∈ s.batch ++ [(j, l, c)], p.1 ≠ i := by
        intro p hp
        rcases List.mem_append.mp hp with h | h
        · exact hb p h
        · simp only [List.mem_singleton] at h
          subst h
          exact he
      simp only [stepEvent]
      split_ifs <;> simp_all [applyBatch_getElem_ne _ _ _ hball]
      all_goals assumption

lemma runLoop_untouched (cfg : Config) (events : List Event) (s : St) (i : Nat)
    (hev : ∀ e ∈ events, e.idx ≠ i) (hb : ∀ p ∈ s.batch, p.1 ≠ i) :
    (runLoop cfg events s).rows[i]? = s.rows[i]? ∧
      ∀ p ∈ (runLoop cfg events s).batch, p.1 ≠ i := by
  induction events generalizing s with
  | nil => exact ⟨rfl, hb⟩
  | cons e es ih =>
      rw [runLoop]
      split_ifs with h
      · exact ⟨rfl, hb⟩
      · have hstep := stepEvent_untouched cfg e s i (hev e (List.mem_cons_self e es)) hb
        have hrest := ih (stepEvent cfg e s)
          (fun e' he' => hev e' (List.mem_cons_of_mem e he')) hstep.2
        exact ⟨hrest.1.trans hstep.1, hrest.2⟩

lemma finalize_untouched (cfg : Config) (s : St) (i : Nat)
    (hb : ∀ p ∈ s.batch, p.1 ≠ i) :
    (finalize cfg s).rows[i]? = s.rows[i]? := by
  simp only [finalize]
  split_ifs <;> simp [applyBatch_getElem_ne _ _ _ hb]

lemma run_untouched (cfg : Config) (df0 : List Row) (events : List Event) (i : Nat)
    (hev : ∀ e ∈ events, e.idx ≠ i) :
    (run cfg df0 events).rows[i]? = df0[i]? := by
  have hloop := runLoop_untouched cfg events (initSt df0) i hev (by intro p hp; simp [initSt] at hp)
  rw [run, finalize_untouched cfg _ i hloop.2, hloop.1]; rfl

/-! ### Progress counters -/

lemma stepEvent_consumed (cfg : Config) (e : Event) (s : St) :
    (stepEvent cfg e s).consumed = s.consumed + 1 := by
  rcases e with ⟨j, o⟩
  cases o with
  | none => rfl
  | some lc =>
      rcases lc with ⟨l, c⟩
      simp only [stepEvent]
      split_ifs <;> rfl

lemma stepEvent_stopped (cfg : Config) (e : Event) (s : St) :
    (stepEvent cfg e s).stopped = s.stopped := by
  rcases e with ⟨j, o⟩
  cases o with
  | none => rfl
  | some lc =>
      rcases lc with ⟨l, c⟩
      simp only [stepEvent]
      split_ifs <;> rfl

lemma runLoop_no_shutdown (cfg : Config) (hsched : ∀ t, cfg.sched t = false)
    (events : List Event) (s : St) :
    (runLoop cfg events s).consumed = s.consumed + events.length ∧
      (runLoop cfg events s).stopped = s.stopped := by
  induction events generalizing s with
  | nil => exact ⟨rfl, rfl⟩
  | cons e es ih =>
      rw [runLoop, if_neg (by simp [hsched])]
      have h := ih (stepEvent cfg e s)
      rw [h.1, stepEvent_consumed, h.2, stepEvent_stopped]
      exact ⟨by rw [List.length_cons]; omega, rfl⟩

lemma okCount_cons_none (i : Nat) (es : List Event) :
    okCount (⟨i, none⟩ :: es) = okCount es := by
  simp [okCount]

lemma okCount_cons_some (i : Nat) (lc : String × String) (es : List Event) :
    okCount (⟨i, some lc⟩ :: es) = okCount es + 1 := by
  simp [okCount]

/-! ### Batch accounting -/

lemma stepEvent_none_parts (cfg : Config) (i : Nat) (s : St) :
    (stepEvent cfg ⟨i, none⟩ s).batch = s.batch ∧
      (stepEvent cfg ⟨i, none⟩ s).calls = s.calls := ⟨rfl, rfl⟩

lemma stepEvent_some_noflush (cfg : Config) (i : Nat) (l c : String) (s : St)
    (h : ¬cfg.B ≤ (s.batch ++ [(i, l, c)]).length) :
    stepEvent cfg ⟨i, some (l, c)⟩ s =
      { s with batch := s.batch ++ [(i, l, c)], consumed := s.consumed + 1 } := by
  have h' : ¬cfg.B ≤ s.batch.length + 1 := by simpa using h
  simp [stepEvent, h']

lemma stepEvent_some_flush_parts (cfg : Config) (i : Nat) (l c : String) (s : St)
    (h : cfg.B ≤ (s.batch ++ [(i, l, c)]).length) :
    (stepEvent cfg ⟨i, some (l, c)⟩ s).batch = [] ∧
      (stepEvent cfg ⟨i, some (l, c)⟩ s).calls = s.calls + 1 := by
  simp only [stepEvent, if_pos h]
  split_ifs <;> exact ⟨rfl, rfl⟩

/-- Inside the consume loop (no shutdown): each successfully fetched item joins
the buffer, which is flushed to `predict_batch` exactly at multiples of
`BATCH_SIZE`. -/
lemma runLoop_calls_batch (cfg : Config) (hB : 0 < cfg.B)
    (hsched : ∀ t, cfg.sched t = false) (events : List Event) :
    ∀ s : St, s.batch.length < cfg.B →
      (runLoop cfg events s).calls = s.calls + (s.batch.length + okCount events) / cfg.B ∧
      (runLoop cfg events s).batch.length = (s.batch.length + okCount events) % cfg.B := by
  induction events with
  | nil =>
      intro s hs
      simp [runLoop, okCount, Nat.mod_eq_of_lt hs, Nat.div_eq_of_lt hs]
  | cons e es ih =>
      intro s hs
      rw [runLoop, if_neg (by simp [hsched])]
      rcases e with ⟨i, o⟩
      cases o with
      | none =>
          have hparts := stepEvent_none_parts cfg i s
          have h := ih (stepEvent cfg ⟨i, none⟩ s) (by rw [hparts.1]; exact hs)
          rw [h.1, h.2, hparts.1, hparts.2, okCount_cons_none]
          exact ⟨rfl, rfl⟩
      | some lc =>
          rcases lc with ⟨l, c⟩
          by_cases hflush : cfg.B ≤ (s.batch ++ [(i, l, c)]).length
          · have hparts := stepEvent_some_flush_parts cfg i l c s hflush
            have hlen : s.batch.length + 1 = cfg.B := by
              simp only [List.length_append, List.length_singleton] at hflush
              omega
            have h := ih (stepEvent cfg ⟨i, some (l, c)⟩ s)
              (by rw [hparts.1]; simpa using hB)
            rw [h.1, h.2, hparts.1, hparts.2, okCount_cons_some]
            constructor
            · have harith : s.batch.length + (okCount es + 1) = okCount es + cfg.B := by omega
              rw [harith, Nat.add_div_right _ hB]
              simp only [List.length_nil, Nat.zero_add]
              omega
            · have harith : s.batch.length + (okCount es + 1) = okCount es + cfg.B := by omega
              rw [harith, Nat.add_mod_right]
              simp
          · rw [stepEvent_some_noflush cfg i l c s hflush]
            have hb1 : ({ s with batch := s.batch ++ [(i, l, c)], consumed := s.consumed + 1 } : St).batch.length < cfg.B := by
              show (s.batch ++ [(i, l, c)]).length < cfg.B
              omega
            have h := ih _ hb1
            rw [h.1, h.2, okCount_cons_some]
            dsimp only
            simp only [List.length_append, List.length_singleton]
            constructor
            · congr 2
              omega
            · congr 1
              omega

/-- Ceiling division, phrased through quotient and remainder. -/
lemma ceil_div_split (B N : Nat) (hB : 0 < B) :
    (N + B - 1) / B = N / B + (if N % B = 0 then 0 else 1) := by
  have hmod := Nat.div_add_mod N B
  set q := N / B with hq
  set r := N % B with hr
  have hrlt : r < B := Nat.mod_lt _ hB
  by_cases h0 : r = 0
  · have hN : N = B * q := by omega
    have h1 : N + B - 1 = B * q + (B - 1) := by omega
    rw [h0, if_pos rfl, h1, Nat.mul_add_div hB, Nat.div_eq_of_lt (by omega)]
  · have h1 : N + B - 1 = B * (q + 1) + (r - 1) := by
      have : B * (q + 1) = B * q + B := by ring
      omega
    rw [if_neg h0, h1, Nat.mul_add_div hB, Nat.div_eq_of_lt (by omega)]

lemma finalize_calls (cfg : Config) (s : St) (hstop : s.stopped = false)
    (hsched : cfg.sched s.consumed = false) :
    (finalize cfg s).calls = s.calls + (if s.batch.isEmpty then 0 else 1) := by
  simp only [finalize, hstop, hsched]
  split_ifs <;> simp_all

lemma finalize_finalSave (cfg : Config) (s : St) :
    (finalize cfg s).finalSave = true := rfl

lemma finalize_consumed (cfg : Config) (s : St) :
    (finalize cfg s).consumed = s.consumed := by
  simp only [finalize]
  split_ifs <;> rfl

lemma finalize_calls_stopped (cfg : Config) (s : St) (h : s.stopped = true) :
    (finalize cfg s).calls = s.calls := by
  simp only [finalize, h]
  rfl

/-! ### Further row-cell helpers -/

lemma predAt_congr (rows rows' : List Row) (i : Nat) (h : rows[i]? = rows'[i]?) :
    predAt rows i = predAt rows' i := by
  unfold predAt
  rw [h]

lemma predAt_setPredCell_self (rows : List Row) (i : Nat) (v : Option String)
    (h : i < rows.length) : predAt (setPredCell rows i v) i = v := by
  have hget : rows[i]? = some rows[i] := List.getElem?_eq_getElem h
  unfold setPredCell
  rw [hget]
  unfold predAt
  rw [List.getElem?_set_self (by simpa using h)]

lemma needsProcess_predAt_setPredCell_error (rows : List Row) (i : Nat) :
    needsProcess (predAt (setPredCell rows i (some "ERROR")) i) = true := by
  by_cases h : i < rows.length
  · rw [predAt_setPredCell_self rows i _ h]
    rfl
  · have hget : rows[i]? = none := List.getElem?_eq_none (by omega)
    unfold setPredCell
    rw [hget]
    unfold predAt
    rw [hget]
    rfl

lemma runLoop_append (cfg : Config) (hsched : ∀ t, cfg.sched t = false)
    (l1 l2 : List Event) (s : St) :
    runLoop cfg (l1 ++ l2) s = runLoop cfg l2 (runLoop cfg l1 s) := by
  induction l1 generalizing s with
  | nil => rfl
  | cons e es ih =>
      rw [List.cons_append, runLoop, if_neg (by simp [hsched]),
        runLoop, if_neg (by simp [hsched])]
      exact ih _

/-! ### Eligibility is preserved when every predict call fails -/

lemma stepEvent_keeps_eligible (cfg : Config) (e : Event) (s : St) (i : Nat)
    (hpred : ∀ k, cfg.predictOk k = false)
    (h : needsProcess (predAt s.rows i) = true) :
    needsProcess (predAt (stepEvent cfg e s).rows i) = true := by
  rcases e with ⟨j, o⟩
  cases o with
  | none =>
      by_cases hij : j = i
      · subst hij
        exact needsProcess_predAt_setPredCell_error s.rows j
      · show needsProcess (predAt (setPredCell s.rows j (some "ERROR")) i) = true
        rw [predAt_congr _ s.rows i (setPredCell_getElem_ne s.rows j i _ hij)]
        exact h
  | some lc =>
      rcases lc with ⟨l, c⟩
      simp only [stepEvent]
      split_ifs <;>
        first
          | simpa using h
          | exact absurd (by assumption : cfg.predictOk s.calls = true) (by simp [hpred])

lemma runLoop_keeps_eligible (cfg : Config)
    (hpred : ∀ k, cfg.predictOk k = false) (events : List Event) :
    ∀ (s : St) (i : Nat), needsProcess (predAt s.rows i) = true →
      needsProcess (predAt (runLoop cfg events s).rows i) = true := by
  induction events with
  | nil => exact fun s i h => h
  | cons e es ih =>
      intro s i h
      rw [runLoop]
      split_ifs with hsch
      · exact h
      · exact ih _ i (stepEvent_keeps_eligible cfg e s i hpred h)

lemma finalize_rows_predfail (cfg : Config) (s : St)
    (hpred : ∀ k, cfg.predictOk k = false) :
    (finalize cfg s).rows = s.rows := by
  simp only [finalize, hpred s.calls]
  split_ifs <;> first | rfl | contradiction

/-! ### Fetch attempt accounting -/

lemma fetchFrom_count_le {α : Type} (idx : Nat) (base : ℚ)
    (oracle : Nat → Option α) (l : List Nat) :
    (fetchFrom idx base oracle l).2.2 ≤ l.length := by
  induction l with
  | nil => exact Nat.le_refl 0
  | cons a rest ih =>
      rw [fetchFrom]
      cases oracle a with
      | some img => simp
      | none =>
          by_cases hrest : rest.isEmpty
          · simp [hrest]
          · rw [if_neg hrest]
            show (fetchFrom idx base oracle rest).2.2 + 1 ≤ (a :: rest).length
            simp only [List.length_cons]
            omega

lemma fetchFrom_count_pos {α : Type} (idx : Nat) (base : ℚ)
    (oracle : Nat → Option α) (l : List Nat) (h : l ≠ []) :
    1 ≤ (fetchFrom idx base oracle l).2.2 := by
  cases l with
  | nil => exact absurd rfl h
  | cons a rest =>
      rw [fetchFrom]
      cases oracle a with
      | some img => exact Nat.le_refl 1
      | none =>
          by_cases hrest : rest.isEmpty
          · simp [hrest]
          · rw [if_neg hrest]
            show 1 ≤ (fetchFrom idx base oracle rest).2.2 + 1
            omega

lemma fetchFrom_delays_eq {α : Type} (idx : Nat) (base : ℚ)
    (oracle : Nat → Option α) (k : Nat) :
    ∀ s : Nat, (fetchFrom idx base oracle (List.range' s k)).2.1 =
      (List.range' s ((fetchFrom idx base oracle (List.range' s k)).2.2 - 1)).map
        (fun n => base ^ n) := by
  induction k with
  | zero => intro s; rfl
  | succ k ih =>
      intro s
      rw [List.range'_succ, fetchFrom]
      cases oracle s with
      | some img => rfl
      | none =>
          by_cases hk : (List.range' (s + 1) k).isEmpty
          · simp [hk]
          · have hkpos : k ≠ 0 := by
              intro h0
              rw [h0] at hk
              exact hk rfl
            have hne : List.range' (s + 1) k ≠ [] := by
              intro h0
              rw [h0] at hk
              exact hk rfl
            have hcnt := fetchFrom_count_pos idx base oracle _ hne
            simp only [hk, if_false]
            rw [ih (s + 1)]
            have hc1 : (fetchFrom idx base oracle (List.range' (s + 1) k)).2.2 - 1 + 1 =
                (fetchFrom idx base oracle (List.range' (s + 1) k)).2.2 + 1 - 1 := by
              omega
            show base ^ s :: _ = (List.range' s
              ((fetchFrom idx base oracle (List.range' (s + 1) k)).2.2 + 1 - 1)).map
                (fun n => base ^ n)
            rw [show (fetchFrom idx base oracle (List.range' (s + 1) k)).2.2 + 1 - 1 =
              ((fetchFrom idx base oracle (List.range' (s + 1) k)).2.2 - 1) + 1 by omega]
            rw [List.range'_succ, List.map_cons]

lemma fetchFrom_result_ne_nil {α : Type} (idx : Nat) (base : ℚ)
    (oracle : Nat → Option α) (l : List Nat) (h : l ≠ []) :
    (∃ img, (fetchFrom idx base oracle l).1 = some (idx, some img)) ∨
      (fetchFrom idx base oracle l).1 = some (idx, none) := by
  induction l with
  | nil => exact absurd rfl h
  | cons a rest ih =>
      rw [fetchFrom]
      cases oracle a with
      | some img => exact Or.inl ⟨img, rfl⟩
      | none =>
          by_cases hrest : rest.isEmpty
          · rw [if_pos hrest]
            exact Or.inr rfl
          · rw [if_neg hrest]
            have hne : rest ≠ [] := by
              cases rest
              · exact absurd rfl hrest
              · exact fun hc => List.noConfusion hc
            exact ih hne

/-! ## Claim theorems -/

/-- **C10**: the v2 and v3 detection resume filters are not equivalent — on a
missing (`NaN`) prediction cell, as produced when a CSV with empty prediction
cells is read back, v3's filter (`isna` included) selects the row for
reprocessing while v2's (`== ''` or `== 'ERROR'` only) excludes it; on every
non-missing cell the two filters agree. -/
theorem resume_filter_divergence :
    needsProcess none = true ∧ needsProcessV2 none = false ∧
      ∀ s : String, needsProcess (some s) = needsProcessV2 (some s) := by
  refine ⟨rfl, rfl, fun s => ?_⟩
  simp [needsProcess, needsProcessV2, isna]

/-- **C7**: for `MAX_RETRIES ≥ 1` the fetch boundary is total — `fetch_image`
returns `(idx, img)` on a successful attempt, or `(idx, None)` once the last
attempt fails; every exception is absorbed by the handler, so no failure
escapes to the caller, which receives a per-item value it can act on. -/
theorem fetch_never_raises {α : Type} (idx maxRetries : Nat) (base : ℚ)
    (oracle : Nat → Option α) (h : 1 ≤ maxRetries) :
    (∃ img, (fetch_image idx maxRetries base oracle).1 = some (idx, some img)) ∨
      (fetch_image idx maxRetries base oracle).1 = some (idx, none) := by
  apply fetchFrom_result_ne_nil
  intro hnil
  have hlen := congrArg List.length hnil
  rw [List.length_range'] at hlen
  simp at hlen
  omega

/-- Witness for `fetch_never_raises`: the source constant `MAX_RETRIES = 3`
with an always-failing oracle. -/
theorem fetch_never_raises_witness :
    1 ≤ MAX_RETRIES ∧
      ((∃ img, (fetch_image (α := Unit) 7 MAX_RETRIES BACKOFF_BASE
            (fun _ => none)).1 = some (7, some img)) ∨
        (fetch_image (α := Unit) 7 MAX_RETRIES BACKOFF_BASE
            (fun _ => none)).1 = some (7, none)) :=
  ⟨by decide, fetch_never_raises 7 MAX_RETRIES BACKOFF_BASE (fun _ => none) (by decide)⟩

lemma range'_one_getElem? (s m j : Nat) (h : j < m) :
    (List.range' s m)[j]? = some (s + j) := by
  have := List.getElem?_range' s 1 h
  simpa using this

/-- **C6**: an item whose fetch keeps failing with a retryable error is
attempted at most `MAX_RETRIES` times; the delay slept before attempt `n+1`
is `BACKOFF_BASE ^ n`; and since `BACKOFF_BASE = 1.5 ≥ 1` the sequence of
inter-attempt delays is non-decreasing. -/
theorem backoff_bound {α : Type} (idx : Nat) (oracle : Nat → Option α) :
    (fetch_image idx MAX_RETRIES BACKOFF_BASE oracle).2.2 ≤ MAX_RETRIES ∧
      (∀ n : Nat, 1 ≤ n →
        n < (fetch_image idx MAX_RETRIES BACKOFF_BASE oracle).2.2 →
        (fetch_image idx MAX_RETRIES BACKOFF_BASE oracle).2.1[n - 1]? =
          some (BACKOFF_BASE ^ n)) ∧
      ∀ i j : Nat, i ≤ j →
        j < (fetch_image idx MAX_RETRIES BACKOFF_BASE oracle).2.1.length →
        ∃ di dj,
          (fetch_image idx MAX_RETRIES BACKOFF_BASE oracle).2.1[i]? = some di ∧
          (fetch_image idx MAX_RETRIES BACKOFF_BASE oracle).2.1[j]? = some dj ∧
          di ≤ dj := by
  have hdel := fetchFrom_delays_eq idx BACKOFF_BASE oracle MAX_RETRIES 1
  have hcnt := fetchFrom_count_le idx BACKOFF_BASE oracle (List.range' 1 MAX_RETRIES)
  rw [List.length_range'] at hcnt
  have hbase : (1 : ℚ) ≤ BACKOFF_BASE := by norm_num [BACKOFF_BASE]
  simp only [fetch_image]
  refine ⟨hcnt, ?_, ?_⟩
  · intro n hn1 hn2
    rw [hdel, List.getElem?_map,
      range'_one_getElem? 1 _ (n - 1) (by omega)]
    have : 1 + (n - 1) = n := by omega
    rw [this]
    rfl
  · intro i j hij hj
    rw [hdel] at hj ⊢
    rw [List.length_map, List.length_range'] at hj
    refine ⟨BACKOFF_BASE ^ (1 + i), BACKOFF_BASE ^ (1 + j), ?_, ?_, ?_⟩
    · rw [List.getElem?_map, range'_one_getElem? 1 _ i (by omega)]
      rfl
    · rw [List.getElem?_map, range'_one_getElem? 1 _ j hj]
      rfl
    · exact pow_le_pow_right₀ hbase (by omega)

/-- Witness for `backoff_bound`: with an always-failing oracle all 3 attempts
are made, and the delay before the second attempt is `BACKOFF_BASE ^ 1`. -/
theorem backoff_bound_witness :
    ((1 : Nat) ≤ 1 ∧
        1 < (fetch_image (α := Unit) 0 MAX_RETRIES BACKOFF_BASE (fun _ => none)).2.2) ∧
      (fetch_image (α := Unit) 0 MAX_RETRIES BACKOFF_BASE (fun _ => none)).2.1[0]? =
        some (BACKOFF_BASE ^ 1) :=
  ⟨⟨by decide, by decide⟩,
    (backoff_bound 0 (fun _ => none)).2.1 1 (by decide) (by decide)⟩

/-- **C2 (amended)**: the v3 checkpoint writer `atomic_save_csv` is atomic —
whatever the crash point, the canonical path holds either the previous
checkpoint or the new complete one, never a truncation. -/
theorem checkpoint_atomic_v3 (d : Disk) (content : List String) (k : Nat) :
    (atomicSaveCrash d content k).canonical = d.canonical ∨
      (atomicSaveCrash d content k).canonical = .complete content := by
  unfold atomicSaveCrash
  split_ifs <;> simp

/-- Counterexample to **C2** as stated: v2's `save_intermediate` writes
`df.to_csv` straight onto the canonical path, so a crash one row into a
two-row checkpoint leaves the canonical path truncated — neither the previous
complete checkpoint nor the new one. -/
theorem checkpoint_v2_not_atomic_cex :
    (directSaveCrash ⟨.complete ["row0"], .absent⟩ ["row0", "row1"] 1).canonical =
        .truncated ["row0"] ∧
      FileData.truncated ["row0"] ≠ FileData.complete ["row0"] ∧
      FileData.truncated ["row0"] ≠ FileData.complete ["row0", "row1"] := by
  refine ⟨rfl, by decide, by decide⟩

/-- **C5**: in a run with no shutdown and `BATCH_SIZE = B ≥ 1`, `predict_batch`
is invoked exactly `⌈N/B⌉ = (N + B - 1) / B` times for `N` successfully
fetched items — once per full buffer plus exactly one flush of the final
partial buffer, which holds `N % B` items when the consume loop ends. -/
theorem batch_flush_completeness (cfg : Config) (df0 : List Row)
    (events : List Event) (hB : 0 < cfg.B) (hsched : ∀ t, cfg.sched t = false) :
    (run cfg df0 events).calls = (okCount events + cfg.B - 1) / cfg.B ∧
      (runLoop cfg events (initSt df0)).batch.length = okCount events % cfg.B := by
  have hinit : (initSt df0).batch.length < cfg.B := by
    simpa [initSt] using hB
  have hloop := runLoop_calls_batch cfg hB hsched events (initSt df0) hinit
  have hstop := (runLoop_no_shutdown cfg hsched events (initSt df0)).2
  have hcalls : (runLoop cfg events (initSt df0)).calls = okCount events / cfg.B := by
    rw [hloop.1]
    simp [initSt]
  have hbatch : (runLoop cfg events (initSt df0)).batch.length =
      okCount events % cfg.B := by
    rw [hloop.2]
    simp [initSt]
  refine ⟨?_, hbatch⟩
  rw [run, finalize_calls cfg _ (by rw [hstop]; rfl) (hsched _), hcalls,
    ceil_div_split cfg.B (okCount events) hB]
  have hiff : ((runLoop cfg events (initSt df0)).batch.isEmpty = true) ↔
      okCount events % cfg.B = 0 := by
    rw [List.isEmpty_iff_length_eq_zero, hbatch]
  by_cases hb : okCount events % cfg.B = 0
  · rw [if_pos hb, if_pos (hiff.mpr hb)]
  · rw [if_neg hb, if_neg (fun hc => hb (hiff.mp hc))]

def wCfg5 : Config := ⟨2, 1000, fun _ => false, fun _ => true⟩

def wDf5 : List Row :=
  [⟨"a", some "", some ""⟩, ⟨"b", some "", some ""⟩, ⟨"c", some "", some ""⟩]

def wEv5 : List Event :=
  [⟨0, some ("yes", "0.9")⟩, ⟨1, some ("no", "0.2")⟩, ⟨2, some ("yes", "0.8")⟩]

/-- Witness for `batch_flush_completeness`: 3 fetched items, `B = 2`. -/
theorem batch_flush_completeness_witness :
    0 < wCfg5.B ∧
      ((run wCfg5 wDf5 wEv5).calls = (okCount wEv5 + wCfg5.B - 1) / wCfg5.B ∧
        (runLoop wCfg5 wEv5 (initSt wDf5)).batch.length = okCount wEv5 % wCfg5.B) :=
  ⟨by decide, batch_flush_completeness wCfg5 wDf5 wEv5 (by decide) (fun _ => rfl)⟩

/-- **C1**: when a checkpoint is loaded, the v3 `df_to_process` filter selects
exactly the rows that are not `already_done`; the final output has one row per
input row; and every `already_done` row's stored prediction and confidence are
carried to the final output unchanged at its own position — never resubmitted
for processing and never recomputed. -/
theorem resume_idempotent (cfg : Config) (df0 : List Row) (events : List Event)
    (hev : ∀ e ∈ events, e.idx ∈ toProcessIdx df0) :
    toProcessIdx df0 =
        (List.range df0.length).filter (fun i => !alreadyDone (predAt df0 i)) ∧
      (run cfg df0 events).rows.length = df0.length ∧
      ∀ i : Nat, alreadyDone (predAt df0 i) = true →
        (run cfg df0 events).rows[i]? = df0[i]? ∧ i ∉ toProcessIdx df0 := by
  have hfilters : toProcessIdx df0 =
      (List.range df0.length).filter (fun i => !alreadyDone (predAt df0 i)) := by
    unfold toProcessIdx
    congr 1
    funext i
    rw [needsProcess_eq_not_alreadyDone]
  refine ⟨hfilters, run_rows_length cfg df0 events, ?_⟩
  intro i hi
  have hnot : i ∉ toProcessIdx df0 := by
    unfold toProcessIdx
    simp only [List.mem_filter]
    intro hmem
    rw [needsProcess_eq_not_alreadyDone, hi] at hmem
    simp at hmem
  refine ⟨run_untouched cfg df0 events i ?_, hnot⟩
  intro e he hcontra
  exact hnot (hcontra ▸ hev e he)

def wDf1 : List Row :=
  [⟨"u0", some "yes", some "0.91"⟩, ⟨"u1", some "", some ""⟩, ⟨"u2", none, none⟩]

def wEv1 : List Event := [⟨1, some ("no", "0.23")⟩, ⟨2, none⟩]

/-- Witness for `resume_idempotent`: a checkpoint with one done row, one empty
row and one NaN row, resumed over the two pending rows. -/
theorem resume_idempotent_witness :
    (∀ e ∈ wEv1, e.idx ∈ toProcessIdx wDf1) ∧
      (toProcessIdx wDf1 =
          (List.range wDf1.length).filter (fun i => !alreadyDone (predAt wDf1 i)) ∧
        (run wCfg5 wDf1 wEv1).rows.length = wDf1.length ∧
        ∀ i : Nat, alreadyDone (predAt wDf1 i) = true →
          (run wCfg5 wDf1 wEv1).rows[i]? = wDf1[i]? ∧ i ∉ toProcessIdx wDf1) :=
  ⟨by decide, resume_idempotent wCfg5 wDf1 wEv1 (by decide)⟩

def c3Cfg : Config := ⟨1, 1000, fun _ => false, fun _ => false⟩

def c3Df : List Row := [⟨"u", some "", some ""⟩]

def c3Ev : List Event := [⟨0, some ("yes", "0.9")⟩]

/-- Counterexample to **C3** as stated: with `BATCH_SIZE = 1` and a failing
`predict_batch`, the buffered item's row is left exactly as it was — its
prediction is still the empty string, not the distinguished `ERROR` marker,
so members of a failed batch do **not** carry an error state afterwards. -/
theorem batch_failure_unmarked_cex :
    (run c3Cfg c3Df c3Ev).calls = 1 ∧
      (run c3Cfg c3Df c3Ev).rows = c3Df ∧
      predAt (run c3Cfg c3Df c3Ev).rows 0 = some "" ∧
      (some "" : Option String) ≠ some "ERROR" := by
  refine ⟨rfl, rfl, rfl, by decide⟩

/-- **C3 (amended)**: a failed `predict_batch` clears the buffer without
writing any marker; the run does not abort (every remaining outcome is still
consumed) and each member of the failed buffer keeps its prior prediction
value, so a row that was resume-eligible stays resume-eligible: with every
predict call failing, every initially eligible row is still eligible at the
end of the run. -/
theorem batch_failure_resume_eligible (cfg : Config) (df0 : List Row)
    (events : List Event) (hsched : ∀ t, cfg.sched t = false)
    (hpred : ∀ k, cfg.predictOk k = false) :
    (run cfg df0 events).consumed = events.length ∧
      ∀ i : Nat, needsProcess (predAt df0 i) = true →
        needsProcess (predAt (run cfg df0 events).rows i) = true := by
  constructor
  · rw [run, finalize_consumed, (runLoop_no_shutdown cfg hsched events (initSt df0)).1]
    simp [initSt]
  · intro i hi
    rw [run, finalize_rows_predfail cfg _ hpred]
    exact runLoop_keeps_eligible cfg hpred events (initSt df0) i hi

/-- Witness for `batch_failure_resume_eligible` at the counterexample input. -/
theorem batch_failure_resume_eligible_witness :
    ((∀ t : Nat, c3Cfg.sched t = false) ∧ (∀ k : Nat, c3Cfg.predictOk k = false)) ∧
      ((run c3Cfg c3Df c3Ev).consumed = c3Ev.length ∧
        ∀ i : Nat, needsProcess (predAt c3Df i) = true →
          needsProcess (predAt (run c3Cfg c3Df c3Ev).rows i) = true) :=
  ⟨⟨fun _ => rfl, fun _ => rfl⟩,
    batch_failure_resume_eligible c3Cfg c3Df c3Ev (fun _ => rfl) (fun _ => rfl)⟩

/-- **C4 (amended)**: in the detection stage, with distinct event indices in
range and no shutdown, the final output has exactly one row per input row,
and every item whose fetch failed is kept in the output with the `ERROR`
marker rather than dropped.  (The collection stage does not satisfy the
claim: see `row_count_collection_cex`.) -/
theorem row_count_preservation (cfg : Config) (df0 : List Row)
    (events : List Event) (hsched : ∀ t, cfg.sched t = false)
    (hnodup : (events.map Event.idx).Nodup)
    (hlen : ∀ e ∈ events, e.idx < df0.length) :
    (run cfg df0 events).rows.length = df0.length ∧
      ∀ e ∈ events, e.outcome = none →
        predAt (run cfg df0 events).rows e.idx = some "ERROR" := by
  refine ⟨run_rows_length cfg df0 events, ?_⟩
  intro e he hout
  have hjlen : e.idx < df0.length := hlen e he
  rcases e with ⟨j, o⟩
  have ho : o = none := hout
  subst ho
  obtain ⟨l1, l2, rfl⟩ := List.append_of_mem he
  rw [List.map_append, List.map_cons, List.nodup_append] at hnodup
  obtain ⟨h1, h2, hdisj⟩ := hnodup
  have hne2 : j ∉ l2.map Event.idx := by
    have := (List.nodup_cons.mp h2).1
    simpa using this
  have hne1 : j ∉ l1.map Event.idx := by
    intro hmem
    exact hdisj hmem (List.mem_cons_self _ _)
  rw [run, runLoop_append cfg hsched l1 (⟨j, none⟩ :: l2) (initSt df0),
    runLoop, if_neg (by simp [hsched])]
  have hu1 := runLoop_untouched cfg l1 (initSt df0) j
    (fun e' he' hc => hne1 (hc ▸ List.mem_map_of_mem Event.idx he'))
    (by intro p hp; simp [initSt] at hp)
  have hrows1len : (runLoop cfg l1 (initSt df0)).rows.length = df0.length := by
    rw [runLoop_rows_length]
    rfl
  have hmark : predAt (stepEvent cfg ⟨j, none⟩ (runLoop cfg l1 (initSt df0))).rows j =
      some "ERROR" := by
    show predAt (setPredCell (runLoop cfg l1 (initSt df0)).rows j (some "ERROR")) j =
      some "ERROR"
    exact predAt_setPredCell_self _ j _ (by rw [hrows1len]; exact hjlen)
  have hb2 : ∀ p ∈ (stepEvent cfg ⟨j, none⟩ (runLoop cfg l1 (initSt df0))).batch,
      p.1 ≠ j := by
    rw [(stepEvent_none_parts cfg j (runLoop cfg l1 (initSt df0))).1]
    exact hu1.2
  have hu2 := runLoop_untouched cfg l2
    (stepEvent cfg ⟨j, none⟩ (runLoop cfg l1 (initSt df0))) j
    (fun e' he' hc => hne2 (hc ▸ List.mem_map_of_mem Event.idx he')) hb2
  have hfin := finalize_untouched cfg
    (runLoop cfg l2 (stepEvent cfg ⟨j, none⟩ (runLoop cfg l1 (initSt df0)))) j hu2.2
  rw [predAt_congr _ _ j hfin, predAt_congr _ _ j hu2.1]
  exact hmark

def wDf4 : List Row := [⟨"x", some "", some ""⟩, ⟨"y", none, none⟩]

def wEv4 : List Event := [⟨0, none⟩, ⟨1, some ("yes", "0.7")⟩]

/-- Witness for `row_count_preservation`: one failing and one succeeding
fetch. -/
theorem row_count_preservation_witness :
    ((∀ t : Nat, wCfg5.sched t = false) ∧ (wEv4.map Event.idx).Nodup ∧
        (∀ e ∈ wEv4, e.idx < wDf4.length)) ∧
      ((run wCfg5 wDf4 wEv4).rows.length = wDf4.length ∧
        ∀ e ∈ wEv4, e.outcome = none →
          predAt (run wCfg5 wDf4 wEv4).rows e.idx = some "ERROR") :=
  ⟨⟨fun _ => rfl, by decide, by decide⟩,
    row_count_preservation wCfg5 wDf4 wEv4 (fun _ => rfl) (by decide) (by decide)⟩

/-- Counterexample to **C4** as stated: in the collection stage
(`1_extract_street_img_urls_missing.py`), a tile whose fetch fails is skipped
with `continue` — it contributes zero output rows and no error-marker row, so
a run over one failing work item produces an empty output instead of one row
per input item. -/
theorem row_count_collection_cex :
    collectRun (α := Nat) [Except.error TileErr.network] = [] ∧
      ([Except.error TileErr.network] : List (Except TileErr (List Nat))).length = 1 ∧
      (0 : Nat) ≠ 1 :=
  ⟨rfl, rfl, by decide⟩

/-! ### C8: the concrete checkpoint scenario of the spec -/

def scenDf : List Row := List.replicate 10 ⟨"u", some "", some ""⟩

def scenEv : List Event := (List.range 10).map (fun i => ⟨i, some ("yes", "0.9")⟩)

def scenCfg : Config := ⟨4, 6, fun _ => false, fun _ => true⟩

/-- The spec's item #7: its fetch fails on attempts 1 and 2 and succeeds on 3. -/
def scenOracle : Nat → Option Unit := fun a => if a = 3 then some () else none

/-- **C8**: a mid-run checkpoint is written by a step exactly when that step
flushes a full buffer through a successful `predict_batch` and the updated
`processed_since_save` counter has reached `SAVE_EVERY`; a final save always
happens at run completion; and in the spec's concrete scenario (10 items,
`BATCH_SIZE = 4`, `SAVE_EVERY = 6`, item #7 failing its fetch twice before
succeeding) the classifier runs 3 times, exactly one mid-run checkpoint
plus the final save are written, and item #7 ends with a non-error label. -/
theorem checkpoint_trigger :
    (∀ (cfg : Config) (e : Event) (s : St), s.pss < cfg.saveEvery →
        ((stepEvent cfg e s).midSaves = s.midSaves + 1 ↔
          e.outcome.isSome = true ∧ cfg.B ≤ s.batch.length + 1 ∧
            cfg.predictOk s.calls = true ∧
            cfg.saveEvery ≤ s.pss + s.batch.length + 1)) ∧
      (∀ (cfg : Config) (s : St), (finalize cfg s).finalSave = true) ∧
      ((run scenCfg scenDf scenEv).calls = 3 ∧
        (run scenCfg scenDf scenEv).midSaves = 1 ∧
        (run scenCfg scenDf scenEv).finalSave = true ∧
        predAt (run scenCfg scenDf scenEv).rows 6 = some "yes" ∧
        (some "yes" : Option String) ≠ some "ERROR" ∧
        (fetch_image (α := Unit) 6 MAX_RETRIES BACKOFF_BASE scenOracle).1 =
          some (6, some ()) ∧
        (fetch_image (α := Unit) 6 MAX_RETRIES BACKOFF_BASE scenOracle).2.2 = 3) := by
  refine ⟨?_, fun cfg s => finalize_finalSave cfg s, by decide⟩
  intro cfg e s hpss
  rcases e with ⟨j, o⟩
  cases o with
  | none =>
      simp only [stepEvent]
      constructor
      · intro hmk
        exact absurd hmk (by omega)
      · rintro ⟨hc, -⟩
        exact absurd hc (by simp)
  | some lc =>
      rcases lc with ⟨l, c⟩
      simp only [stepEvent]
      by_cases h1 : cfg.B ≤ s.batch.length + 1
      · rw [if_pos (by simpa using h1)]
        by_cases h2 : cfg.predictOk s.calls = true
        · rw [if_pos h2]
          by_cases h3 : cfg.saveEvery ≤ s.pss + (s.batch.length + 1)
          · rw [if_pos (by simpa using h3)]
            dsimp only
            constructor
            · intro _
              exact ⟨rfl, h1, h2, by omega⟩
            · intro _
              rfl
          · rw [if_neg (by simpa using h3)]
            dsimp only
            constructor
            · intro hmk
              exact absurd hmk (by omega)
            · rintro ⟨-, -, -, hc⟩
              exact absurd (by omega : cfg.saveEvery ≤ s.pss + (s.batch.length + 1)) h3
        · rw [if_neg h2]
          rw [if_neg (by dsimp only; omega)]
          dsimp only
          constructor
          · intro hmk
            exact absurd hmk (by omega)
          · rintro ⟨-, -, hc, -⟩
            exact absurd hc h2
      · rw [if_neg (by simpa using h1)]
        dsimp only
        constructor
        · intro hmk
          exact absurd hmk (by omega)
        · rintro ⟨-, hc, -, -⟩
          exact absurd hc h1

/-- Witness for `checkpoint_trigger`'s general trigger: the first step of the
scenario (empty counter, buffer far from full) writes no mid-run checkpoint. -/
theorem checkpoint_trigger_witness :
    (initSt scenDf).pss < scenCfg.saveEvery ∧
      ((stepEvent scenCfg ⟨0, some ("yes", "0.9")⟩ (initSt scenDf)).midSaves =
          (initSt scenDf).midSaves + 1 ↔
        (some ("yes", "0.9") : Option (String × String)).isSome = true ∧
          scenCfg.B ≤ (initSt scenDf).batch.length + 1 ∧
          scenCfg.predictOk (initSt scenDf).calls = true ∧
          scenCfg.saveEvery ≤ (initSt scenDf).pss + (initSt scenDf).batch.length + 1) :=
  ⟨by decide,
    checkpoint_trigger.1 scenCfg ⟨0, some ("yes", "0.9")⟩ (initSt scenDf) (by decide)⟩

/-! ### C9: shutdown drains and is idempotent -/

lemma runLoop_breaks_at (B SE : Nat) (po : Nat → Bool) (k : Nat)
    (events : List Event) :
    ∀ s : St, s.consumed ≤ k → k < s.consumed + events.length →
      (runLoop ⟨B, SE, fun t => decide (k ≤ t), po⟩ events s).consumed = k ∧
        (runLoop ⟨B, SE, fun t => decide (k ≤ t), po⟩ events s).stopped = true ∧
        (runLoop ⟨B, SE, fun t => decide (k ≤ t), po⟩ events s).shutdownSave = true := by
  induction events with
  | nil =>
      intro s h1 h2
      rw [List.length_nil] at h2
      exact absurd h2 (by omega)
  | cons e es ih =>
      intro s h1 h2
      by_cases hk : k ≤ s.consumed
      · have hek : s.consumed = k := by omega
        rw [runLoop, if_pos (by simpa using hk)]
        exact ⟨hek, rfl, rfl⟩
      · rw [runLoop, if_neg (by simpa using hk)]
        refine ih (stepEvent _ e s) ?_ ?_
        · rw [stepEvent_consumed]
          omega
        · rw [stepEvent_consumed]
          rw [List.length_cons] at h2
          omega

/-- **C9**: the shutdown flag is observed only at the top of the consume loop,
between item completions; once it is first seen set (at loop index `k`) the
run consumes exactly the `k` earlier outcomes, marks itself stopped, writes
the shutdown checkpoint, makes no further `predict_batch` call (the final
flush is skipped) while still writing the final save; and a second shutdown
signal while already draining changes nothing, because setting the
already-set flag is a no-op. -/
theorem shutdown_drained_idempotent (B SE : Nat) (po : Nat → Bool)
    (df0 : List Row) (events : List Event) (k : Nat) (hk : k < events.length) :
    (runLoop ⟨B, SE, fun t => decide (k ≤ t), po⟩ events (initSt df0)).consumed = k ∧
      (runLoop ⟨B, SE, fun t => decide (k ≤ t), po⟩ events (initSt df0)).stopped = true ∧
      (runLoop ⟨B, SE, fun t => decide (k ≤ t), po⟩ events (initSt df0)).shutdownSave = true ∧
      (run ⟨B, SE, fun t => decide (k ≤ t), po⟩ df0 events).calls =
        (runLoop ⟨B, SE, fun t => decide (k ≤ t), po⟩ events (initSt df0)).calls ∧
      (run ⟨B, SE, fun t => decide (k ≤ t), po⟩ df0 events).finalSave = true ∧
      (∀ b : Bool, setFlag (setFlag b) = setFlag b) ∧
      (∀ (t1 t : Nat) (ts : List Nat),
        sigSched (t1 :: t1 :: ts) t = sigSched (t1 :: ts) t) ∧
      ∀ (t1 : Nat) (ts : List Nat) (B2 SE2 : Nat) (po2 : Nat → Bool)
        (df2 : List Row) (ev2 : List Event),
        run ⟨B2, SE2, sigSched (t1 :: t1 :: ts), po2⟩ df2 ev2 =
          run ⟨B2, SE2, sigSched (t1 :: ts), po2⟩ df2 ev2 := by
  have hbrk := runLoop_breaks_at B SE po k events (initSt df0)
    (by simp [initSt]) (by simp [initSt]; omega)
  have hdup : ∀ (t1 t : Nat) (ts : List Nat),
      sigSched (t1 :: t1 :: ts) t = sigSched (t1 :: ts) t := by
    intro t1 t ts
    simp only [sigSched, List.any_cons]
    cases h : decide (t1 ≤ t) <;> simp
  refine ⟨hbrk.1, hbrk.2.1, hbrk.2.2, ?_, finalize_finalSave _ _, fun b => rfl, hdup, ?_⟩
  · exact finalize_calls_stopped _ _ hbrk.2.1
  · intro t1 ts B2 SE2 po2 df2 ev2
    have hs : sigSched (t1 :: t1 :: ts) = sigSched (t1 :: ts) := by
      funext t
      exact hdup t1 t ts
    rw [hs]

def wEv9 : List Event :=
  [⟨0, some ("yes", "0.5")⟩, ⟨1, some ("no", "0.4")⟩, ⟨2, some ("yes", "0.6")⟩]

/-- Witness for `shutdown_drained_idempotent`: the flag is raised before the
second of three completions. -/
theorem shutdown_drained_idempotent_witness :
    1 < wEv9.length ∧
      ((runLoop ⟨2, 1000, fun t => decide (1 ≤ t), fun _ => true⟩ wEv9
            (initSt wDf5)).consumed = 1 ∧
        (runLoop ⟨2, 1000, fun t => decide (1 ≤ t), fun _ => true⟩ wEv9
            (initSt wDf5)).stopped = true ∧
        (runLoop ⟨2, 1000, fun t => decide (1 ≤ t), fun _ => true⟩ wEv9
            (initSt wDf5)).shutdownSave = true ∧
        (run ⟨2, 1000, fun t => decide (1 ≤ t), fun _ => true⟩ wDf5 wEv9).calls =
          (runLoop ⟨2, 1000, fun t => decide (1 ≤ t), fun _ => true⟩ wEv9
            (initSt wDf5)).calls ∧
        (run ⟨2, 1000, fun t => decide (1 ≤ t), fun _ => true⟩ wDf5 wEv9).finalSave = true ∧
        (∀ b : Bool, setFlag (setFlag b) = setFlag b) ∧
        (∀ (t1 t : Nat) (ts : List Nat),
          sigSched (t1 :: t1 :: ts) t = sigSched (t1 :: ts) t) ∧
        ∀ (t1 : Nat) (ts : List Nat) (B2 SE2 : Nat) (po2 : Nat → Bool)
          (df2 : List Row) (ev2 : List Event),
          run ⟨B2, SE2, sigSched (t1 :: t1 :: ts), po2⟩ df2 ev2 =
            run ⟨B2, SE2, sigSched (t1 :: ts), po2⟩ df2 ev2) :=
  ⟨by decide, shutdown_drained_idempotent 2 1000 (fun _ => true) wDf5 wEv9 1 (by decide)⟩

end HomelessPipeline
